import Mathlib

/-!
Verification of the widget-board plugin runtime.

This file gives a shallow embedding of the plugin process runtime of the
widget-board dashboard application: the IPC message protocol
(`src/ipc/message_schema.py`), the host-side process supervisor
(`src/plugins_host/supervisor.py`), the worker-side dispatch loop
(`src/plugins_host/worker.py`), the plugin proxy
(`src/core/plugin_proxy.py`), and the update throttling/coalescing
scheduler (`src/core/update_manager.py`), together with theorems settling
the specification's testable properties against this embedding.

External effects (OS processes, ZMQ sockets, wall-clock time, exceptions
raised by hosted plugin code) are modelled by explicit environment records
that enumerate the outcome of each effectful step; exceptions are modelled
with `Except`, fallible operations with `Option`, and Python dicts as
association lists with unique keys.
-/

namespace WidgetBoard

/-! ## JSON values

Payloads of IPC messages are Python dicts of strings, numbers, booleans
and nested maps/lists (`payload: Dict[str, Any]`).  The textual
serialization itself is done by Python's standard `json` module
(`json.dumps` / `json.loads`), which is external library code; the
embedding therefore works at the level of the structured JSON value the
repository's code builds and consumes. -/

inductive Json where
  | null : Json
  | bool (b : Bool) : Json
  | num (n : Int) : Json
  | str (s : String) : Json
  | arr (elems : List Json) : Json
  | obj (fields : List (String × Json)) : Json

/-- Lookup of a key in a JSON object's field list (Python `data["key"]`,
totalised to `Option`). -/
def jsonLookup (fields : List (String × Json)) (k : String) : Option Json :=
  match fields with
  | [] => none
  | (k', v) :: rest => if k' = k then some v else jsonLookup rest k

/-! ## Message protocol (`src/ipc/message_schema.py`) -/

/-- Message types for IPC communication (`class MessageType(str, Enum)`). -/
inductive MessageType where
  | INIT
  | START
  | UPDATE
  | DISPOSE
  | RENDER
  | SETTINGS_CHANGED
  | ERROR
  | HEARTBEAT
  | SHUTDOWN
deriving DecidableEq, Repr

/-- String value of each enum member (`MessageType.INIT.value == "init"` …). -/
def MessageType.value : MessageType → String
  | .INIT => "init"
  | .START => "start"
  | .UPDATE => "update"
  | .DISPOSE => "dispose"
  | .RENDER => "render"
  | .SETTINGS_CHANGED => "settings_changed"
  | .ERROR => "error"
  | .HEARTBEAT => "heartbeat"
  | .SHUTDOWN => "shutdown"

/-- Enum construction from the wire string (`MessageType(data["type"])`);
Python raises `ValueError` on an unknown string, modelled as `none`. -/
def MessageType.ofValue (s : String) : Option MessageType :=
  if s = "init" then some .INIT
  else if s = "start" then some .START
  else if s = "update" then some .UPDATE
  else if s = "dispose" then some .DISPOSE
  else if s = "render" then some .RENDER
  else if s = "settings_changed" then some .SETTINGS_CHANGED
  else if s = "error" then some .ERROR
  else if s = "heartbeat" then some .HEARTBEAT
  else if s = "shutdown" then some .SHUTDOWN
  else none

/-- Base IPC message: `{type, instance_id, payload}`
(`@dataclass class IPCMessage`). -/
structure IPCMessage where
  type : MessageType
  instance_id : String
  payload : List (String × Json)

/-- Serialization (`IPCMessage.to_json`): builds the dict
`{"type": self.type.value, "instance_id": ..., "payload": ...}` which
`json.dumps` then renders. -/
def IPCMessage.to_json (m : IPCMessage) : Json :=
  .obj [("type", .str m.type.value),
        ("instance_id", .str m.instance_id),
        ("payload", .obj m.payload)]

/-- Deserialization (`IPCMessage.from_json`): reads the three fields back
out of the parsed dict; any missing field, wrong field shape or unknown
type string is a Python exception, modelled as `none`. -/
def IPCMessage.from_json (j : Json) : Option IPCMessage :=
  match j with
  | .obj fields =>
    match jsonLookup fields "type", jsonLookup fields "instance_id",
          jsonLookup fields "payload" with
    | some (.str t), some (.str iid), some (.obj p) =>
      match MessageType.ofValue t with
      | some mt => some ⟨mt, iid, p⟩
      | none => none
    | _, _, _ => none
  | _ => none

/-- Helper constructor `ErrorMessage(instance_id, error, traceback)`. -/
def ErrorMessage (instance_id : String) (error : String)
    (traceback : Option String := none) : IPCMessage :=
  ⟨.ERROR, instance_id,
    [("error", .str error),
     ("traceback", match traceback with | some t => .str t | none => .null)]⟩

theorem MessageType.ofValue_value (t : MessageType) :
    MessageType.ofValue t.value = some t := by
  cases t <;> rfl

/-! ## Python dicts

`self.processes` and the UpdateManager maps are Python dicts: finite maps
with unique keys that preserve insertion order (assignment to an existing
key keeps its position, a new key is appended, `del` removes the key's
single entry).  They are embedded as association lists; `dictErase` is
written as a filter, which on unique-key lists coincides with `del`. -/

/-- Python `m.get(k)` / `m[k]` lookup. -/
def dictLookup {α : Type} (m : List (String × α)) (k : String) : Option α :=
  match m with
  | [] => none
  | (k', v) :: rest => if k' = k then some v else dictLookup rest k

/-- Python `m[k] = v`: replace in place when the key exists, else append. -/
def dictInsert {α : Type} (m : List (String × α)) (k : String) (v : α) :
    List (String × α) :=
  match m with
  | [] => [(k, v)]
  | (k', v') :: rest =>
    if k' = k then (k, v) :: rest else (k', v') :: dictInsert rest k v

/-- Python `del m[k]` (on a unique-key dict). -/
def dictErase {α : Type} (m : List (String × α)) (k : String) :
    List (String × α) :=
  m.filter (fun p => p.1 ≠ k)

/-! ## Supervisor (`src/plugins_host/supervisor.py`)

The supervisor owns OS process handles and transports.  Effects of each
step of `spawn_plugin` / `terminate_plugin` (subprocess start, grace-period
poll, transport construction, handshake replies, waits, exceptions) are
supplied by explicit environment records. -/

/-- Information about a running plugin process (`@dataclass PluginProcess`);
the `process` handle is represented by its pid, the transport by its
endpoint. -/
structure PluginProcess where
  instance_id : String
  plugin_id : String
  pid : Nat
  endpoint : String
  started : Int
  last_heartbeat : Int

/-- Supervisor state: the process table and the monotone port counter. -/
structure SupervisorState where
  processes : List (String × PluginProcess)
  next_port : Nat

/-- Outcomes of the effectful steps of one `spawn_plugin` call. -/
structure SpawnEnv where
  /-- Step `subprocess.Popen(...)` raises, so no OS process is started. -/
  popenRaises : Bool
  /-- Step `process.poll()` after the 0.5s grace sleep reports the process
  already exited. -/
  exitedDuringGrace : Bool
  /-- Step `ZMQTransport(zmq.REQ, endpoint, bind=False)` raises; caught by the
  blanket `except Exception` handler. -/
  transportRaises : Bool
  /-- Reply to the INIT handshake (`send_and_receive`, 5s);
  `none` is a timeout. -/
  initReply : Option IPCMessage
  /-- Reply to the START handshake (5s); `none` is a timeout. -/
  startReply : Option IPCMessage
  /-- Pid of the started process. -/
  pid : Nat
  /-- Clock `time.time()` at registration. -/
  now : Int

/-- Result of one `spawn_plugin` call.  `spawnedStillRunning` records
whether the OS process this call started is still running and untracked
when the call returns (an orphan). -/
structure SpawnResult where
  success : Bool
  state : SupervisorState
  spawnedStillRunning : Bool

/-- Model of `PluginSupervisor.spawn_plugin`: duplicate check, port allocation,
process start, grace-period poll, transport, INIT then START handshake,
registration.  On INIT/START timeout or ERROR the code closes the
transport and terminates the process; an exception anywhere in the `try`
block is caught, logged and turned into `return False` — without
terminating an already-started process. -/
def spawn_plugin (s : SupervisorState) (env : SpawnEnv)
    (instance_id plugin_id : String) (_settings : List (String × Json)) :
    SpawnResult :=
  if (dictLookup s.processes instance_id).isSome then
    ⟨false, s, false⟩
  else
    let port := s.next_port
    let s' : SupervisorState := { s with next_port := s.next_port + 1 }
    let endpoint := "tcp://127.0.0.1:" ++ toString port
    if env.popenRaises then
      ⟨false, s', false⟩
    else if env.exitedDuringGrace then
      ⟨false, s', false⟩
    else if env.transportRaises then
      ⟨false, s', true⟩
    else
      match env.initReply with
      | none => ⟨false, s', false⟩
      | some r =>
        if r.type = .ERROR then ⟨false, s', false⟩
        else
          match env.startReply with
          | none => ⟨false, s', false⟩
          | some r2 =>
            if r2.type = .ERROR then ⟨false, s', false⟩
            else
              ⟨true,
                { s' with processes := (dictInsert s'.processes instance_id
                    ⟨instance_id, plugin_id, env.pid, endpoint, env.now,
                      env.now⟩) },
                false⟩

/-- Outcomes of the effectful steps of one `terminate_plugin` call. -/
structure TerminateEnv where
  /-- Step `transport.send(shutdown_msg)` outcome (errors are caught inside
  `send`, which returns a Bool). -/
  sendOk : Bool
  /-- The process exits within the 2s graceful wait. -/
  gracefulExit : Bool
  /-- The process exits within the 1s wait after `terminate()`. -/
  exitAfterTerminate : Bool
  /-- Step `transport.close()` raises; caught by the `except` clause. -/
  closeRaises : Bool

/-- How the worker process ended up being stopped. -/
inductive TermOutcome where
  | graceful
  | terminated
  | killed
deriving DecidableEq, Repr

/-- The `try` block of `terminate_plugin`: shutdown message, graceful
wait, `terminate()`, `kill()`, transport close.  These steps touch only
the OS process and the transport, never the process table. -/
def terminate_steps (env : TerminateEnv) : TermOutcome :=
  if env.gracefulExit then .graceful
  else if env.exitAfterTerminate then .terminated
  else .killed

/-- Model of `PluginSupervisor.terminate_plugin`: no-op when the instance is not
tracked; otherwise runs the termination steps with every exception caught,
and the `finally` clause deletes the Process Record unconditionally. -/
def terminate_plugin (s : SupervisorState) (env : TerminateEnv)
    (instance_id : String) : SupervisorState × Option TermOutcome :=
  if (dictLookup s.processes instance_id).isNone then
    (s, none)
  else
    ({ s with processes := dictErase s.processes instance_id },
      some (terminate_steps env))

/-- Reply obtained by `transport.send_and_receive` inside
`request_render` (`none` is a send failure or receive timeout). -/
structure RenderEnv where
  response : Option IPCMessage

/-- Model of `PluginSupervisor.request_render`: `None` for an unknown instance;
otherwise forwards a RENDER message and returns the reply payload unless
the reply is missing or an ERROR envelope. -/
def request_render (s : SupervisorState) (env : RenderEnv)
    (instance_id : String) (_width _height : Int) :
    Option (List (String × Json)) :=
  if (dictLookup s.processes instance_id).isNone then none
  else
    match env.response with
    | some r => if r.type = .ERROR then none else some r.payload
    | none => none

/-! ## Plugin lifecycle (`src/core/plugin_api.py`)

`PluginState` and the default lifecycle methods of the plugin base class.
The worker's handlers call these on the hosted instance. -/

/-- Plugin lifecycle states (`class PluginState(Enum)`). -/
inductive PluginState where
  | UNINITIALIZED
  | INITIALIZED
  | STARTED
  | STOPPED
  | DISPOSED
  | ERROR
deriving DecidableEq, Repr

/-- Default `start()`: transition to STARTED only from INITIALIZED or
STOPPED, otherwise leave the state unchanged. -/
def PluginBase_start (s : PluginState) : PluginState :=
  if s = .INITIALIZED ∨ s = .STOPPED then .STARTED else s

/-- Default `stop()`: STARTED becomes STOPPED, anything else unchanged. -/
def PluginBase_stop (s : PluginState) : PluginState :=
  if s = .STARTED then .STOPPED else s

/-- Default `dispose()`: unless already DISPOSED, stop and become
DISPOSED. -/
def PluginBase_dispose (s : PluginState) : PluginState :=
  if s = .DISPOSED then s else .DISPOSED

/-! ## Worker runtime (`src/plugins_host/worker.py`)

The worker hosts one plugin instance (`self.plugin`, `None` until INIT)
and loops over inbound messages.  The hosted plugin's code and the
injected construction factory are external to the worker runtime; each
received message therefore comes with a `HandlerEnv` giving the outcome
of the plugin calls the handler makes. -/

/-- Worker-process state: `self.instance_id`, `self.plugin` (the hosted
instance's lifecycle state, `none` when no instance exists), and the
`self.running` loop flag. -/
structure WorkerState where
  instance_id : String
  plugin : Option PluginState
  running : Bool
deriving Repr

/-- Outcomes of the external calls a single handler invocation makes. -/
structure HandlerEnv where
  /-- Factory `_create_plugin_instance` raises. -/
  createRaises : Option String
  /-- Factory `_create_plugin_instance` returned an instance (true) or `None`. -/
  createResult : Bool
  /-- The plugin method the handler calls (`init`, `start`, `update`,
  `get_render_data`, `on_settings_changed`, `dispose`) raises. -/
  callRaises : Option String
  /-- Result of `plugin.get_render_data()`. -/
  renderData : Json

/-- Ack reply `{"status": "ok"}` of the given kind. -/
def okReply (t : MessageType) (instance_id : String) : IPCMessage :=
  ⟨t, instance_id, [("status", .str "ok")]⟩

/-- Handler `_handle_init`: read `plugin_id`/`settings` from the payload (a
missing key is a `KeyError`), run the factory, and initialize the fresh
instance; a factory returning `None` is an ERROR reply (not an
exception).  Note `self.plugin` is assigned before `init()` runs, so an
`init()` exception leaves the uninitialized instance attached. -/
def handle_init (w : WorkerState) (m : IPCMessage) (env : HandlerEnv) :
    WorkerState × Except String IPCMessage :=
  match jsonLookup m.payload "plugin_id" with
  | none => (w, .error "KeyError: plugin_id")
  | some _ =>
    match jsonLookup m.payload "settings" with
    | none => (w, .error "KeyError: settings")
    | some _ =>
      match env.createRaises with
      | some e => (w, .error e)
      | none =>
        if env.createResult then
          let w' : WorkerState := { w with plugin := some .UNINITIALIZED }
          match env.callRaises with
          | some e => (w', .error e)
          | none =>
            ({ w with plugin := some .INITIALIZED },
              .ok (okReply .INIT w.instance_id))
        else
          (w, .ok (ErrorMessage w.instance_id "Failed to create plugin"))

/-- Handler `_handle_start`: ERROR reply when no instance exists; otherwise call
`plugin.start()` (which transitions only from INITIALIZED/STOPPED) and
reply ok. -/
def handle_start (w : WorkerState) (env : HandlerEnv) :
    WorkerState × Except String IPCMessage :=
  match w.plugin with
  | none => (w, .ok (ErrorMessage w.instance_id "Plugin not initialized"))
  | some st =>
    match env.callRaises with
    | some e => (w, .error e)
    | none =>
      ({ w with plugin := some (PluginBase_start st) },
        .ok (okReply .START w.instance_id))

/-- Handler `_handle_update`: ERROR reply when no instance; read `delta_time`
(KeyError if missing); forward to `plugin.update`. -/
def handle_update (w : WorkerState) (m : IPCMessage) (env : HandlerEnv) :
    WorkerState × Except String IPCMessage :=
  match w.plugin with
  | none => (w, .ok (ErrorMessage w.instance_id "Plugin not initialized"))
  | some _ =>
    match jsonLookup m.payload "delta_time" with
    | none => (w, .error "KeyError: delta_time")
    | some _ =>
      match env.callRaises with
      | some e => (w, .error e)
      | none => (w, .ok (okReply .UPDATE w.instance_id))

/-- Handler `_handle_render`: ERROR reply when no instance; read `width`/`height`;
ask the plugin for its render data and wrap it with the requested size. -/
def handle_render (w : WorkerState) (m : IPCMessage) (env : HandlerEnv) :
    WorkerState × Except String IPCMessage :=
  match w.plugin with
  | none => (w, .ok (ErrorMessage w.instance_id "Plugin not initialized"))
  | some _ =>
    match jsonLookup m.payload "width" with
    | none => (w, .error "KeyError: width")
    | some width =>
      match jsonLookup m.payload "height" with
      | none => (w, .error "KeyError: height")
      | some height =>
        match env.callRaises with
        | some e => (w, .error e)
        | none =>
          (w, .ok ⟨.RENDER, w.instance_id,
            [("render_data", env.renderData),
             ("width", width), ("height", height)]⟩)

/-- Handler `_handle_settings_changed`: ERROR reply when no instance; read
`settings`; notify the plugin. -/
def handle_settings_changed (w : WorkerState) (m : IPCMessage)
    (env : HandlerEnv) : WorkerState × Except String IPCMessage :=
  match w.plugin with
  | none => (w, .ok (ErrorMessage w.instance_id "Plugin not initialized"))
  | some _ =>
    match jsonLookup m.payload "settings" with
    | none => (w, .error "KeyError: settings")
    | some _ =>
      match env.callRaises with
      | some e => (w, .error e)
      | none => (w, .ok (okReply .SETTINGS_CHANGED w.instance_id))

/-- Handler `_handle_dispose`: dispose a live instance and clear the reference;
always replies ok when nothing raises. -/
def handle_dispose (w : WorkerState) (env : HandlerEnv) :
    WorkerState × Except String IPCMessage :=
  match w.plugin with
  | none => (w, .ok (okReply .DISPOSE w.instance_id))
  | some _ =>
    match env.callRaises with
    | some e => (w, .error e)
    | none =>
      ({ w with plugin := none }, .ok (okReply .DISPOSE w.instance_id))

/-- Handler `_handle_shutdown`: clear the `running` flag and reply ok; makes no
external call, so it cannot raise. -/
def handle_shutdown (w : WorkerState) :
    WorkerState × Except String IPCMessage :=
  ({ w with running := false }, .ok (okReply .SHUTDOWN w.instance_id))

/-- The dispatch chain inside `_handle_message`'s `try` block. -/
def dispatch_message (w : WorkerState) (m : IPCMessage) (env : HandlerEnv) :
    WorkerState × Except String IPCMessage :=
  match m.type with
  | .INIT => handle_init w m env
  | .START => handle_start w env
  | .UPDATE => handle_update w m env
  | .RENDER => handle_render w m env
  | .SETTINGS_CHANGED => handle_settings_changed w m env
  | .DISPOSE => handle_dispose w env
  | .SHUTDOWN => handle_shutdown w
  | t => (w, .ok (ErrorMessage w.instance_id
      ("Unknown message type: " ++ t.value)))

/-- Boundary `_handle_message`: any exception from the dispatch chain is caught at
this boundary and converted into an ERROR envelope carrying `str(e)` and
the traceback. -/
def handle_message (w : WorkerState) (m : IPCMessage) (env : HandlerEnv) :
    WorkerState × IPCMessage :=
  match dispatch_message w m env with
  | (w', .ok r) => (w', r)
  | (w', .error e) =>
    (w', ErrorMessage w.instance_id e (some ("Traceback: " ++ e)))

/-- One observable event of the worker's main loop: a receive timeout
(`receive` returned `None`) or a received message together with the
outcomes of the plugin calls its handler makes. -/
inductive WorkerEvent where
  | timeout
  | msg (m : IPCMessage) (env : HandlerEnv)

/-- The `while self.running` loop of `PluginWorker.run`: receive, handle,
send the reply.  Returns the state at loop exit, the replies sent, and
the events left unconsumed after the loop stopped. -/
def run_loop (w : WorkerState) :
    List WorkerEvent → WorkerState × List IPCMessage × List WorkerEvent
  | [] => (w, [], [])
  | e :: rest =>
    if w.running then
      match e with
      | .timeout => run_loop w rest
      | .msg m env =>
        let p := handle_message w m env
        let r := run_loop p.1 rest
        (r.1, p.2 :: r.2.1, r.2.2)
    else
      (w, [], e :: rest)

/-- Cleanup `PluginWorker._cleanup`: dispose a live plugin instance (exceptions
caught) and close the transport.  Returns the final state, whether a live
instance was disposed, and whether the transport was closed. -/
def worker_cleanup (w : WorkerState) : WorkerState × Bool × Bool :=
  (⟨w.instance_id,
    (match w.plugin with
     | some st => some (PluginBase_dispose st)
     | none => none),
    w.running⟩,
   w.plugin.isSome, true)

/-- Result of `PluginWorker.run`: the `finally` clause runs `_cleanup`
on every exit path. -/
structure RunResult where
  finalState : WorkerState
  replies : List IPCMessage
  leftover : List WorkerEvent
  disposedLivePlugin : Bool
  transportClosed : Bool

/-- Model of `PluginWorker.run`: the main loop followed by the guaranteed
`finally` cleanup. -/
def worker_run (w0 : WorkerState) (events : List WorkerEvent) : RunResult :=
  let l := run_loop w0 events
  let c := worker_cleanup l.1
  ⟨c.1, l.2.1, l.2.2, c.2.1, c.2.2⟩

/-! ## Plugin proxy (`src/core/plugin_proxy.py`) -/

/-- Proxy-side state: the instance id and the `self._initialized` flag. -/
structure ProxyState where
  instance_id : String
  initialized : Bool

/-- Model of `PluginProxy.get_render_data`: a fixed placeholder when the proxy is
not initialized; otherwise `request_render(instance_id, 400, 300)`, with
`None` mapped to the render-error placeholder and a reply payload mapped
to its `render_data` field (empty dict default). -/
def get_render_data (p : ProxyState) (s : SupervisorState)
    (env : RenderEnv) : Json :=
  if p.initialized = false then
    .obj [("html", .str "<div>Plugin not initialized</div>")]
  else
    match request_render s env p.instance_id 400 300 with
    | none => .obj [("html", .str "<div>Render error</div>")]
    | some rd => (jsonLookup rd "render_data").getD (.obj [])

/-! ## Update scheduler (`src/core/update_manager.py`)

Single-threaded and tick-driven.  Times are milliseconds (`datetime`
differences are compared in ms against the integer config fields). -/

/-- Pending update request (`@dataclass UpdateRequest`). -/
structure UpdateRequest where
  instance_id : String
  reason : String
  requested_at : Int
  coalesced_count : Nat
deriving DecidableEq, Repr

/-- Per-instance throttling configuration (`@dataclass ThrottleConfig`,
defaults 1000 / 3 / 100). -/
structure ThrottleConfig where
  min_interval_ms : Int
  max_pending : Nat
  coalesce_window_ms : Int
deriving DecidableEq, Repr

/-- UpdateManager state: `self._configs`, `self._last_update`,
`self._pending`, `self._visible_instances`. -/
structure UMState where
  configs : List (String × ThrottleConfig)
  last_update : List (String × Int)
  pending : List (String × UpdateRequest)
  visible_instances : List String

/-- Lookup `self._configs.get(instance_id, ThrottleConfig())`. -/
def um_config (s : UMState) (i : String) : ThrottleConfig :=
  (dictLookup s.configs i).getD ⟨1000, 3, 100⟩

/-- Model of `UpdateManager.request_update`: coalesce into a pending entry created
within `coalesce_window_ms`; otherwise drop when the pending entry's
`coalesced_count` has reached `max_pending`; otherwise insert a fresh
entry (`coalesced_count = 0`). -/
def request_update (s : UMState) (instance_id reason : String)
    (now : Int) : UMState :=
  match dictLookup s.pending instance_id with
  | some request =>
    if now - request.requested_at < (um_config s instance_id).coalesce_window_ms
    then
      { s with pending := (dictInsert s.pending instance_id
          { request with coalesced_count := request.coalesced_count + 1 }) }
    else if (um_config s instance_id).max_pending ≤ request.coalesced_count
    then
      s
    else
      { s with pending := (dictInsert s.pending instance_id
          ⟨instance_id, reason, now, 0⟩) }
  | none =>
    { s with pending := (dictInsert s.pending instance_id
        ⟨instance_id, reason, now, 0⟩) }

/-- Model of `UpdateManager.set_throttle_config`. -/
def set_throttle_config (s : UMState) (i : String) (c : ThrottleConfig) :
    UMState :=
  { s with configs := dictInsert s.configs i c }

/-- Model of `UpdateManager.set_visible_instances`. -/
def set_visible_instances (s : UMState) (ids : List String) : UMState :=
  { s with visible_instances := ids }

/-- Model of `UpdateManager.clear_pending`. -/
def clear_pending (s : UMState) (i : String) : UMState :=
  { s with pending := dictErase s.pending i }

/-- Model of `UpdateManager.reset_throttle`. -/
def reset_throttle (s : UMState) (i : String) : UMState :=
  { s with last_update := dictErase s.last_update i }

/-- The body of `_process_queue`'s loop for one pending item: skip while
throttled (`elapsed_ms < min_interval_ms` since that instance's last
dispatch), otherwise record the dispatch time and emit
`(instance_id, reason)`. -/
def process_item (now : Int) (acc : UMState × List (String × String))
    (item : String × UpdateRequest) : UMState × List (String × String) :=
  match dictLookup acc.1.last_update item.1 with
  | some t =>
    if now - t < (um_config acc.1 item.1).min_interval_ms then
      acc
    else
      ({ acc.1 with
          last_update := (dictInsert acc.1.last_update item.1 now) },
        acc.2 ++ [(item.1, item.2.reason)])
  | none =>
    ({ acc.1 with
        last_update := (dictInsert acc.1.last_update item.1 now) },
      acc.2 ++ [(item.1, item.2.reason)])

/-- Model of `UpdateManager._process_queue`: stable-sort the pending items with
visible instances first (a stable sort on the boolean key
`x[0] not in visible` is the visible/invisible partition), run the loop,
then delete the dispatched entries from the pending map. -/
def process_queue (s : UMState) (now : Int) :
    UMState × List (String × String) :=
  let pending_items :=
    s.pending.filter (fun p => decide (p.1 ∈ s.visible_instances)) ++
      s.pending.filter (fun p => decide (p.1 ∉ s.visible_instances))
  let r := pending_items.foldl (process_item now) (s, [])
  ({ r.1 with pending :=
      (r.1.pending.filter (fun p => decide (p.1 ∉ r.2.map Prod.fst))) },
    r.2)

/-- One externally triggered operation on the UpdateManager. -/
inductive UMEvent where
  | request (instance_id reason : String) (t : Int)
  | tick (t : Int)
  | clearPending (instance_id : String)
  | setConfig (instance_id : String) (config : ThrottleConfig)
  | setVisible (ids : List String)
  | resetThrottle (instance_id : String)

/-- Apply one event; a tick's dispatches are observed together with the
tick's time (the time at which `update_dispatched` fires). -/
def um_step (s : UMState) : UMEvent → UMState × List (Int × String × String)
  | .request i r t => (request_update s i r t, [])
  | .tick t =>
    ((process_queue s t).1, (process_queue s t).2.map (fun d => (t, d.1, d.2)))
  | .clearPending i => (clear_pending s i, [])
  | .setConfig i c => (set_throttle_config s i c, [])
  | .setVisible ids => (set_visible_instances s ids, [])
  | .resetThrottle i => (reset_throttle s i, [])

/-- Run a sequence of events, collecting every dispatch in order. -/
def um_run (s : UMState) : List UMEvent → UMState × List (Int × String × String)
  | [] => (s, [])
  | e :: rest =>
    ((um_run (um_step s e).1 rest).1,
      (um_step s e).2 ++ (um_run (um_step s e).1 rest).2)

/-- Times of the tick events of a trace, in order. -/
def tickTimes (events : List UMEvent) : List Int :=
  events.filterMap (fun e => match e with | .tick t => some t | _ => none)

/-- Events available under pure `request_update` pressure: requests and
ticks (no reset_throttle, clear_pending or config change). -/
def isPressure : UMEvent → Bool
  | .request _ _ _ => true
  | .tick _ => true
  | _ => false

/-- Dispatch times of instance `i` in a dispatch log. -/
def dispTimes (i : String) (ds : List (Int × String × String)) : List Int :=
  (ds.filter (fun d => decide (d.2.1 = i))).map (fun d => d.1)

/-- Iterated `request_update` calls for one instance (reason, time). -/
def apply_requests (s : UMState) (i : String) :
    List (String × Int) → UMState
  | [] => s
  | (r, t) :: rest => apply_requests (request_update s i r t) i rest

/-- Key lookup after `dictErase` of that key finds nothing. -/
theorem dictLookup_dictErase_self {α : Type} (m : List (String × α))
    (k : String) : dictLookup (dictErase m k) k = none := by
  induction m with
  | nil => rfl
  | cons p rest ih =>
    by_cases h : p.1 = k
    · simpa [dictErase, List.filter, h] using ih
    · simpa [dictErase, List.filter, h, dictLookup] using ih

/-- Number of entries of a map carrying a given key. -/
def keyCount {α : Type} (m : List (String × α)) (k : String) : Nat :=
  (m.filter (fun p => decide (p.1 = k))).length

theorem dictLookup_dictInsert_self {α : Type} (m : List (String × α))
    (k : String) (v : α) : dictLookup (dictInsert m k v) k = some v := by
  induction m with
  | nil => simp [dictInsert, dictLookup]
  | cons p rest ih =>
    cases p with
    | mk k' v' =>
      by_cases h : k' = k
      · simp [dictInsert, h, dictLookup]
      · simp [dictInsert, h, dictLookup, ih]

theorem dictLookup_dictInsert_ne {α : Type} (m : List (String × α))
    (k k' : String) (v : α) (h : k' ≠ k) :
    dictLookup (dictInsert m k v) k' = dictLookup m k' := by
  have h' : ¬(k = k') := fun hh => h hh.symm
  induction m with
  | nil => simp [dictInsert, dictLookup, h']
  | cons p rest ih =>
    cases p with
    | mk a b =>
      by_cases ha : a = k
      · subst ha
        simp [dictInsert, dictLookup, h']
      · simp only [dictInsert, if_neg ha]
        by_cases ha' : a = k'
        · simp [dictLookup, ha']
        · simp [dictLookup, ha', ih]

theorem dictLookup_eq_none_iff {α : Type} (m : List (String × α))
    (k : String) : dictLookup m k = none ↔ k ∉ m.map Prod.fst := by
  induction m with
  | nil => simp [dictLookup]
  | cons p rest ih =>
    cases p with
    | mk a b =>
      by_cases ha : a = k
      · subst ha
        simp [dictLookup]
      · have h' : ¬(k = a) := fun hh => ha hh.symm
        simp [dictLookup, ha, ih, h']

theorem mem_keys_dictInsert {α : Type} (m : List (String × α))
    (k : String) (v : α) (a : String) :
    a ∈ (dictInsert m k v).map Prod.fst ↔ a = k ∨ a ∈ m.map Prod.fst := by
  induction m with
  | nil => simp [dictInsert]
  | cons p rest ih =>
    cases p with
    | mk b c =>
      by_cases hb : b = k
      · subst hb
        simp [dictInsert]
      · simp only [dictInsert, if_neg hb, List.map_cons, List.mem_cons, ih]
        tauto

theorem nodup_keys_dictInsert {α : Type} (m : List (String × α))
    (k : String) (v : α) (h : (m.map Prod.fst).Nodup) :
    ((dictInsert m k v).map Prod.fst).Nodup := by
  induction m with
  | nil => simp [dictInsert]
  | cons p rest ih =>
    cases p with
    | mk a b =>
      simp only [List.map_cons, List.nodup_cons] at h
      by_cases ha : a = k
      · subst ha
        simpa [dictInsert] using h
      · simp only [dictInsert, if_neg ha, List.map_cons, List.nodup_cons]
        refine ⟨?_, ih h.2⟩
        rw [mem_keys_dictInsert]
        push_neg
        exact ⟨ha, h.1⟩

theorem keyCount_cons_self {α : Type} (m : List (String × α))
    (k : String) (v : α) : keyCount ((k, v) :: m) k = keyCount m k + 1 := by
  simp [keyCount, List.filter_cons]

theorem keyCount_cons_ne {α : Type} (m : List (String × α))
    (a k : String) (v : α) (ha : ¬(a = k)) :
    keyCount ((a, v) :: m) k = keyCount m k := by
  simp [keyCount, List.filter_cons, ha]

theorem keyCount_eq_zero_of_not_mem {α : Type} (m : List (String × α))
    (k : String) (h : k ∉ m.map Prod.fst) : keyCount m k = 0 := by
  induction m with
  | nil => rfl
  | cons p rest ih =>
    cases p with
    | mk a b =>
      simp only [List.map_cons, List.mem_cons] at h
      push_neg at h
      have ha : ¬(a = k) := fun hh => h.1 hh.symm
      rw [keyCount_cons_ne rest a k b ha]
      exact ih h.2

theorem keyCount_le_one_of_nodup {α : Type} (m : List (String × α))
    (h : (m.map Prod.fst).Nodup) (k : String) : keyCount m k ≤ 1 := by
  induction m with
  | nil => exact Nat.zero_le 1
  | cons p rest ih =>
    cases p with
    | mk a b =>
      simp only [List.map_cons, List.nodup_cons] at h
      by_cases ha : a = k
      · subst ha
        have h0 : keyCount rest a = 0 := keyCount_eq_zero_of_not_mem rest a h.1
        rw [keyCount_cons_self, h0]
      · rw [keyCount_cons_ne rest a k b ha]
        exact ih h.2

theorem keyCount_dictInsert_of_none {α : Type} (m : List (String × α))
    (k : String) (v : α) (h : dictLookup m k = none) :
    keyCount (dictInsert m k v) k = 1 := by
  induction m with
  | nil =>
    show keyCount [(k, v)] k = 1
    rw [keyCount_cons_self]
    rfl
  | cons p rest ih =>
    cases p with
    | mk a b =>
      by_cases ha : a = k
      · simp [dictLookup, ha] at h
      · simp only [dictLookup, if_neg ha] at h
        simp only [dictInsert, if_neg ha]
        rw [keyCount_cons_ne _ a k b ha]
        exact ih h

theorem keyCount_dictInsert_of_some {α : Type} (m : List (String × α))
    (k : String) (v w : α) (h : dictLookup m k = some w) :
    keyCount (dictInsert m k v) k = keyCount m k := by
  induction m with
  | nil => simp [dictLookup] at h
  | cons p rest ih =>
    cases p with
    | mk a b =>
      by_cases ha : a = k
      · subst ha
        have hred : dictInsert ((a, b) :: rest) a v = (a, v) :: rest := by
          simp [dictInsert]
        rw [hred, keyCount_cons_self, keyCount_cons_self]
      · simp only [dictLookup, if_neg ha] at h
        simp only [dictInsert, if_neg ha]
        rw [keyCount_cons_ne _ a k b ha, keyCount_cons_ne _ a k b ha]
        exact ih h

theorem request_update_fields (s : UMState) (i r : String) (now : Int) :
    (request_update s i r now).configs = s.configs ∧
    (request_update s i r now).last_update = s.last_update ∧
    (request_update s i r now).visible_instances = s.visible_instances := by
  unfold request_update
  split <;> (try split) <;> (try split) <;> exact ⟨rfl, rfl, rfl⟩

theorem process_item_fields (now : Int) (acc : UMState × List (String × String))
    (item : String × UpdateRequest) :
    (process_item now acc item).1.configs = acc.1.configs ∧
    (process_item now acc item).1.pending = acc.1.pending ∧
    (process_item now acc item).1.visible_instances
      = acc.1.visible_instances := by
  unfold process_item
  split <;> (try split) <;> exact ⟨rfl, rfl, rfl⟩

theorem foldl_process_item_fields (now : Int) :
    ∀ (items : List (String × UpdateRequest))
      (acc : UMState × List (String × String)),
      (items.foldl (process_item now) acc).1.configs = acc.1.configs ∧
      (items.foldl (process_item now) acc).1.pending = acc.1.pending ∧
      (items.foldl (process_item now) acc).1.visible_instances
        = acc.1.visible_instances := by
  intro items
  induction items with
  | nil => intro acc; exact ⟨rfl, rfl, rfl⟩
  | cons item rest ih =>
    intro acc
    have h1 := process_item_fields now acc item
    have h2 := ih (process_item now acc item)
    simp only [List.foldl_cons]
    exact ⟨h2.1.trans h1.1, h2.2.1.trans h1.2.1, h2.2.2.trans h1.2.2⟩

/-- Effect of one `_process_queue` loop pass on a single instance `i`
whose effective `min_interval_ms` is the positive `μ`: the loop either
leaves `i`'s dispatch log and last-update entry alone, or dispatches `i`
exactly once — recording time `now` — and only when no previous dispatch
is recorded or at least `μ` ms have elapsed since it. -/
theorem foldl_process_item_instance (now : Int) (i : String) (μ : Int)
    (hpos : 0 < μ) :
    ∀ (items : List (String × UpdateRequest))
      (acc : UMState × List (String × String)),
      (um_config acc.1 i).min_interval_ms = μ →
      ((items.foldl (process_item now) acc).2.filter
          (fun d => decide (d.1 = i))
        = acc.2.filter (fun d => decide (d.1 = i)) ∧
        dictLookup (items.foldl (process_item now) acc).1.last_update i
          = dictLookup acc.1.last_update i) ∨
      (∃ reason,
        (items.foldl (process_item now) acc).2.filter
            (fun d => decide (d.1 = i))
          = acc.2.filter (fun d => decide (d.1 = i)) ++ [(i, reason)] ∧
        dictLookup (items.foldl (process_item now) acc).1.last_update i
          = some now ∧
        (dictLookup acc.1.last_update i = none ∨
          ∃ t, dictLookup acc.1.last_update i = some t ∧ μ ≤ now - t)) := by
  intro items
  induction items with
  | nil =>
    intro acc hμ
    exact Or.inl ⟨rfl, rfl⟩
  | cons item rest ih =>
    intro acc hμ
    obtain ⟨j, req⟩ := item
    have hfields := process_item_fields now acc (j, req)
    have hμ' : (um_config (process_item now acc (j, req)).1 i).min_interval_ms
        = μ := by
      unfold um_config at hμ ⊢
      rw [hfields.1]
      exact hμ
    have hrec := ih (process_item now acc (j, req)) hμ'
    simp only [List.foldl_cons]
    by_cases hj : j = i
    · subst hj
      cases hlast : dictLookup acc.1.last_update j with
      | none =>
        have hpi : process_item now acc (j, req)
            = ({ acc.1 with
                  last_update := (dictInsert acc.1.last_update j now) },
                acc.2 ++ [(j, req.reason)]) := by
          simp [process_item, hlast]
        rw [hpi] at hrec ⊢
        have hself : dictLookup (dictInsert acc.1.last_update j now) j
            = some now := dictLookup_dictInsert_self _ _ _
        have hfilt : (acc.2 ++ [(j, req.reason)]).filter
            (fun d => decide (d.1 = j))
            = acc.2.filter (fun d => decide (d.1 = j)) ++ [(j, req.reason)] := by
          simp [List.filter_append]
        rcases hrec with ⟨hf, hl⟩ | ⟨r2, hf, hl, hcond⟩
        · refine Or.inr ⟨req.reason, ?_, ?_, Or.inl rfl⟩
          · rw [hf, hfilt]
          · rw [hl]
            exact hself
        · exfalso
          rcases hcond with hnone | ⟨t, hsome, hge⟩
          · rw [hself] at hnone
            exact Option.noConfusion hnone
          · rw [hself] at hsome
            have : t = now := by
              injection hsome with hh
              exact hh.symm
            omega
      | some t =>
        by_cases hthr : now - t < μ
        · have hpi : process_item now acc (j, req) = acc := by
            simp [process_item, hlast, hμ, hthr]
          rw [hpi]
          have hrec2 := ih acc hμ
          rw [hlast] at hrec2
          exact hrec2
        · have hpi : process_item now acc (j, req)
              = ({ acc.1 with
                    last_update := (dictInsert acc.1.last_update j now) },
                  acc.2 ++ [(j, req.reason)]) := by
            simp [process_item, hlast, hμ, hthr]
          rw [hpi] at hrec ⊢
          have hself : dictLookup (dictInsert acc.1.last_update j now) j
              = some now := dictLookup_dictInsert_self _ _ _
          have hfilt : (acc.2 ++ [(j, req.reason)]).filter
              (fun d => decide (d.1 = j))
              = acc.2.filter (fun d => decide (d.1 = j))
                ++ [(j, req.reason)] := by
            simp [List.filter_append]
          rcases hrec with ⟨hf, hl⟩ | ⟨r2, hf, hl, hcond⟩
          · refine Or.inr ⟨req.reason, ?_, ?_,
              Or.inr ⟨t, rfl, by omega⟩⟩
            · rw [hf, hfilt]
            · rw [hl]
              exact hself
          · exfalso
            rcases hcond with hnone | ⟨t', hsome, hge⟩
            · rw [hself] at hnone
              exact Option.noConfusion hnone
            · rw [hself] at hsome
              have : t' = now := by
                injection hsome with hh
                exact hh.symm
              omega
    · have hne : i ≠ j := fun hh => hj hh.symm
      have hpi1 : dictLookup (process_item now acc (j, req)).1.last_update i
          = dictLookup acc.1.last_update i := by
        unfold process_item
        split
        · split
          · rfl
          · exact dictLookup_dictInsert_ne _ _ _ _ hne
        · exact dictLookup_dictInsert_ne _ _ _ _ hne
      have hpi2 : (process_item now acc (j, req)).2.filter
          (fun d => decide (d.1 = i))
          = acc.2.filter (fun d => decide (d.1 = i)) := by
        unfold process_item
        split
        · split
          · rfl
          · simp [List.filter_append, hj]
        · simp [List.filter_append, hj]
      rcases hrec with ⟨hf, hl⟩ | ⟨r2, hf, hl, hcond⟩
      · exact Or.inl ⟨hf.trans hpi2, hl.trans hpi1⟩
      · refine Or.inr ⟨r2, ?_, hl, ?_⟩
        · rw [hf, hpi2]
        · rw [hpi1] at hcond
          exact hcond

/-- The pending map after a tick is a filter (deletion of the dispatched
keys) of the pending map before it. -/
theorem process_queue_pending (s : UMState) (now : Int) :
    ∃ q : String × UpdateRequest → Bool,
      (process_queue s now).1.pending = s.pending.filter q := by
  refine ⟨fun p => decide (p.1 ∉
    ((s.pending.filter (fun p => decide (p.1 ∈ s.visible_instances)) ++
      s.pending.filter (fun p => decide (p.1 ∉ s.visible_instances))).foldl
        (process_item now) (s, [])).2.map Prod.fst), ?_⟩
  show ((s.pending.filter (fun p => decide (p.1 ∈ s.visible_instances)) ++
      s.pending.filter (fun p => decide (p.1 ∉ s.visible_instances))).foldl
        (process_item now) (s, [])).1.pending.filter _ = _
  rw [(foldl_process_item_fields now _ (s, [])).2.1]

theorem request_update_nodup (s : UMState) (i r : String) (now : Int)
    (h : (s.pending.map Prod.fst).Nodup) :
    ((request_update s i r now).pending.map Prod.fst).Nodup := by
  unfold request_update
  split
  · split
    · exact nodup_keys_dictInsert _ _ _ h
    · split
      · exact h
      · exact nodup_keys_dictInsert _ _ _ h
  · exact nodup_keys_dictInsert _ _ _ h

theorem um_step_nodup (s : UMState) (e : UMEvent)
    (h : (s.pending.map Prod.fst).Nodup) :
    ((um_step s e).1.pending.map Prod.fst).Nodup := by
  cases e with
  | request i r t => exact request_update_nodup s i r t h
  | tick t =>
    obtain ⟨q, hq⟩ := process_queue_pending s t
    show ((process_queue s t).1.pending.map Prod.fst).Nodup
    rw [hq]
    exact List.Nodup.sublist ((List.filter_sublist s.pending).map Prod.fst) h
  | clearPending i =>
    exact List.Nodup.sublist ((List.filter_sublist s.pending).map Prod.fst) h
  | setConfig i c => exact h
  | setVisible ids => exact h
  | resetThrottle i => exact h

theorem um_run_nodup : ∀ (events : List UMEvent) (s : UMState),
    (s.pending.map Prod.fst).Nodup →
    ((um_run s events).1.pending.map Prod.fst).Nodup := by
  intro events
  induction events with
  | nil => intro s h; exact h
  | cons e rest ih =>
    intro s h
    exact ih (um_step s e).1 (um_step_nodup s e h)

/-- Coalescing invariant: starting from a pending entry
`⟨i, r1, t1, k⟩` that is the map's only entry for `i`, further requests
all created within the window of `t1` each bump the count by one. -/
theorem apply_requests_coalesce (i r1 : String) (t1 w : Int) :
    ∀ (rest : List (String × Int)) (u : UMState) (k : Nat),
      (um_config u i).coalesce_window_ms = w →
      dictLookup u.pending i = some ⟨i, r1, t1, k⟩ →
      keyCount u.pending i = 1 →
      (∀ p ∈ rest, p.2 - t1 < w) →
      dictLookup (apply_requests u i rest).pending i
        = some ⟨i, r1, t1, k + rest.length⟩ ∧
      keyCount (apply_requests u i rest).pending i = 1 := by
  intro rest
  induction rest with
  | nil =>
    intro u k hw hl hc _
    exact ⟨by simpa using hl, hc⟩
  | cons p ps ih =>
    obtain ⟨r, t⟩ := p
    intro u k hw hl hc hall
    have hwin : t - t1 < w := hall (r, t) (List.mem_cons_self _ _)
    have hs : request_update u i r t
        = { u with pending :=
            (dictInsert u.pending i ⟨i, r1, t1, k + 1⟩) } := by
      have hcond : t - t1 < (um_config u i).coalesce_window_ms := by
        rw [hw]; exact hwin
      simp [request_update, hl, hcond]
    have hw' : (um_config (request_update u i r t) i).coalesce_window_ms
        = w := by
      rw [hs]; exact hw
    have hl' : dictLookup (request_update u i r t).pending i
        = some ⟨i, r1, t1, k + 1⟩ := by
      rw [hs]; exact dictLookup_dictInsert_self _ _ _
    have hc' : keyCount (request_update u i r t).pending i = 1 := by
      rw [hs]
      show keyCount (dictInsert u.pending i ⟨i, r1, t1, k + 1⟩) i = 1
      rw [keyCount_dictInsert_of_some u.pending i _ _ hl]
      exact hc
    have hall' : ∀ p ∈ ps, p.2 - t1 < w :=
      fun p hp => hall p (List.mem_cons_of_mem _ hp)
    have hrec := ih (request_update u i r t) (k + 1) hw' hl' hc' hall'
    have hlen : k + 1 + ps.length = k + (ps.length + 1) := by omega
    rw [hlen] at hrec
    simpa [apply_requests] using hrec

theorem process_queue_configs (s : UMState) (now : Int) :
    (process_queue s now).1.configs = s.configs := by
  show ((s.pending.filter (fun p => decide (p.1 ∈ s.visible_instances)) ++
      s.pending.filter (fun p => decide (p.1 ∉ s.visible_instances))).foldl
        (process_item now) (s, [])).1.configs = s.configs
  exact (foldl_process_item_fields now _ (s, [])).1

/-- Effect of one tick on a single instance `i` with positive effective
`min_interval_ms` `μ`: either `i` is not dispatched and its last-update
entry is untouched, or it is dispatched exactly once at time `now`, and
only if it was never dispatched before or at least `μ` ms have passed. -/
theorem process_queue_instance (s : UMState) (now : Int) (i : String)
    (μ : Int) (hpos : 0 < μ)
    (hμ : (um_config s i).min_interval_ms = μ) :
    ((process_queue s now).2.filter (fun d => decide (d.1 = i)) = [] ∧
      dictLookup (process_queue s now).1.last_update i
        = dictLookup s.last_update i) ∨
    (∃ reason,
      (process_queue s now).2.filter (fun d => decide (d.1 = i))
        = [(i, reason)] ∧
      dictLookup (process_queue s now).1.last_update i = some now ∧
      (dictLookup s.last_update i = none ∨
        ∃ t, dictLookup s.last_update i = some t ∧ μ ≤ now - t)) := by
  have h := foldl_process_item_instance now i μ hpos
    (s.pending.filter (fun p => decide (p.1 ∈ s.visible_instances)) ++
      s.pending.filter (fun p => decide (p.1 ∉ s.visible_instances)))
    (s, []) hμ
  rcases h with ⟨hf, hl⟩ | ⟨reason, hf, hl, hcond⟩
  · exact Or.inl ⟨hf, hl⟩
  · exact Or.inr ⟨reason, hf, hl, hcond⟩

theorem dispTimes_append (i : String) (a b : List (Int × String × String)) :
    dispTimes i (a ++ b) = dispTimes i a ++ dispTimes i b := by
  simp [dispTimes, List.filter_append]

/-- Dispatches of one tick, timestamped with the tick time. -/
theorem dispTimes_map_tick (i : String) (t0 : Int)
    (ds : List (String × String)) :
    dispTimes i (ds.map (fun d => (t0, d.1, d.2)))
      = (ds.filter (fun d => decide (d.1 = i))).map (fun _ => t0) := by
  induction ds with
  | nil => rfl
  | cons d ds ih =>
    simp only [dispTimes, List.map_cons, List.filter_cons] at ih ⊢
    by_cases h : d.1 = i <;> simp [h, ih]

/-- Main throttling invariant, by induction along the event trace: under
request/tick pressure with monotone tick times and effective
`min_interval_ms` `μ > 0` for instance `i`, the dispatch times of `i` are
at least `μ` apart, and every future dispatch is at least `μ` after the
recorded last dispatch. -/
theorem um_run_throttle (i : String) (μ : Int) (hpos : 0 < μ) :
    ∀ (events : List UMEvent) (s : UMState),
      (um_config s i).min_interval_ms = μ →
      (∀ e ∈ events, isPressure e = true) →
      (tickTimes events).Pairwise (· ≤ ·) →
      (∀ t, dictLookup s.last_update i = some t →
        ∀ t' ∈ tickTimes events, t ≤ t') →
      List.Chain' (fun a b => a + μ ≤ b)
        (dispTimes i (um_run s events).2) ∧
      (∀ t, dictLookup s.last_update i = some t →
        ∀ u ∈ dispTimes i (um_run s events).2, t + μ ≤ u) := by
  intro events
  induction events with
  | nil =>
    intro s hμ _ _ _
    constructor
    · simp [um_run, dispTimes]
    · intro t ht u hu
      simp [um_run, dispTimes] at hu
  | cons e rest ih =>
    intro s hμ hpr hmono hbound
    have hprrest : ∀ e' ∈ rest, isPressure e' = true :=
      fun e' he' => hpr e' (List.mem_cons_of_mem _ he')
    cases e with
    | request j r t =>
      have hμ' : (um_config (request_update s j r t) i).min_interval_ms
          = μ := by
        unfold um_config at hμ ⊢
        rw [(request_update_fields s j r t).1]
        exact hμ
      have hlast : (request_update s j r t).last_update = s.last_update :=
        (request_update_fields s j r t).2.1
      have htt : tickTimes (UMEvent.request j r t :: rest) = tickTimes rest :=
        rfl
      rw [htt] at hmono hbound
      have h := ih (request_update s j r t) hμ' hprrest hmono
        (by rw [hlast]; exact hbound)
      simp only [um_run, um_step, List.nil_append]
      exact ⟨h.1, by rw [hlast] at h; exact h.2⟩
    | tick t0 =>
      have htt : tickTimes (UMEvent.tick t0 :: rest) = t0 :: tickTimes rest :=
        rfl
      rw [htt] at hmono hbound
      have hm1 : ∀ t' ∈ tickTimes rest, t0 ≤ t' :=
        fun t' ht' => List.rel_of_pairwise_cons hmono ht'
      have hm2 : (tickTimes rest).Pairwise (· ≤ ·) := hmono.of_cons
      have hμp : (um_config (process_queue s t0).1 i).min_interval_ms = μ := by
        unfold um_config at hμ ⊢
        rw [process_queue_configs s t0]
        exact hμ
      have hq := process_queue_instance s t0 i μ hpos hμ
      simp only [um_run, um_step]
      rw [dispTimes_append, dispTimes_map_tick]
      rcases hq with ⟨hf, hl⟩ | ⟨reason, hf, hl, hcond⟩
      · rw [hf]
        have hb0 : ∀ t, dictLookup (process_queue s t0).1.last_update i
            = some t → ∀ t' ∈ tickTimes rest, t ≤ t' := by
          intro t ht t' ht'
          rw [hl] at ht
          exact hbound t ht t' (List.mem_cons_of_mem _ ht')
        have h := ih (process_queue s t0).1 hμp hprrest hm2 hb0
        constructor
        · simpa using h.1
        · intro t ht u hu
          simp only [List.map_nil, List.nil_append] at hu
          rw [hl] at h
          exact h.2 t ht u hu
      · rw [hf]
        have hb' : ∀ t, dictLookup (process_queue s t0).1.last_update i
            = some t → ∀ t' ∈ tickTimes rest, t ≤ t' := by
          intro t ht t' ht'
          rw [hl] at ht
          injection ht with hh
          rw [← hh]
          exact hm1 t' ht'
        have h := ih (process_queue s t0).1 hμp hprrest hm2 hb'
        have hfut : ∀ u ∈ dispTimes i
            (um_run (process_queue s t0).1 rest).2, t0 + μ ≤ u :=
          h.2 t0 hl
        constructor
        · simp only [List.map_cons, List.map_nil, List.cons_append,
            List.nil_append]
          rw [List.chain'_cons']
          refine ⟨?_, h.1⟩
          intro b hb
          exact hfut b (List.mem_of_mem_head? hb)
        · intro t ht u hu
          have hge : t + μ ≤ t0 := by
            rcases hcond with hnone | ⟨t', hsome, hd⟩
            · rw [ht] at hnone
              exact Option.noConfusion hnone
            · rw [ht] at hsome
              injection hsome with hh
              omega
          simp only [List.map_cons, List.map_nil, List.cons_append,
            List.nil_append, List.mem_cons] at hu
          rcases hu with hu | hu
          · omega
          · have := hfut u hu
            omega
    | clearPending j => simp [isPressure] at hpr
    | setConfig j c => simp [isPressure] at hpr
    | setVisible ids => simp [isPressure] at hpr
    | resetThrottle j => simp [isPressure] at hpr

/-- C3: for every valid envelope (payload made of JSON values: strings,
numbers, booleans, nested maps/lists), decoding the encoding yields a
message equal to the original in all three fields. -/
theorem C3_roundtrip (m : IPCMessage) :
    IPCMessage.from_json m.to_json = some m := by
  cases m with
  | mk t iid p =>
    simp [IPCMessage.to_json, IPCMessage.from_json, jsonLookup,
      MessageType.ofValue_value]

/-- C1 (code evaluated at the failing input): when `ZMQTransport`
construction raises after the worker process has been started — the
blanket `except Exception` path of `spawn_plugin` — the call returns
False and leaves the process table unchanged, but the started OS process
is left running untracked, contradicting the claim that no earlier
failure leaves an orphaned OS process. -/
theorem C1_spawn_orphan_at_failing_input :
    (spawn_plugin ⟨[], 5555⟩
      ⟨false, false, true, none, none, 42, 0⟩ "clock_1" "clock" []).success
        = false ∧
    (spawn_plugin ⟨[], 5555⟩
      ⟨false, false, true, none, none, 42, 0⟩ "clock_1" "clock"
        []).state.processes = [] ∧
    (spawn_plugin ⟨[], 5555⟩
      ⟨false, false, true, none, none, 42, 0⟩ "clock_1" "clock"
        []).spawnedStillRunning = true :=
  ⟨rfl, rfl, rfl⟩

/-- C2: for every supervisor state, every environment (graceful shutdown,
forced termination, kill, or exception-raising steps) and every
instance_id, after `terminate_plugin` no Process Record for that
instance_id remains in the table, and a second call on the same
instance_id is a no-op. -/
theorem C2_terminate_removes_record_and_idempotent (s : SupervisorState)
    (env env' : TerminateEnv) (instance_id : String) :
    dictLookup (terminate_plugin s env instance_id).1.processes instance_id
      = none ∧
    (terminate_plugin (terminate_plugin s env instance_id).1 env'
        instance_id).1
      = (terminate_plugin s env instance_id).1 := by
  by_cases h : (dictLookup s.processes instance_id).isNone
  · rw [Option.isNone_iff_eq_none] at h
    constructor
    · simp [terminate_plugin, h]
    · simp [terminate_plugin, h]
  · have h1 : dictLookup
        (terminate_plugin s env instance_id).1.processes instance_id
          = none := by
      simp only [terminate_plugin, if_neg h]
      exact dictLookup_dictErase_self s.processes instance_id
    refine ⟨h1, ?_⟩
    have h2 : (dictLookup
        (terminate_plugin s env instance_id).1.processes
          instance_id).isNone = true := by
      simp [h1]
    generalize (terminate_plugin s env instance_id).1 = s₁ at h2 ⊢
    simp [terminate_plugin, h2]

/-- The worker's `running` flag after handling one message: cleared by
SHUTDOWN, untouched by every other handler (including all exception
paths). -/
theorem dispatch_message_running (w : WorkerState) (m : IPCMessage)
    (env : HandlerEnv) :
    (dispatch_message w m env).1.running
      = if m.type = MessageType.SHUTDOWN then false else w.running := by
  unfold dispatch_message
  cases m.type <;>
    simp [handle_init, handle_start, handle_update, handle_render,
      handle_settings_changed, handle_dispose, handle_shutdown] <;>
    (repeat' split) <;> simp_all

/-- The state component of `handle_message` is that of the dispatch
chain: the catch boundary only replaces the reply. -/
theorem handle_message_fst (w : WorkerState) (m : IPCMessage)
    (env : HandlerEnv) :
    (handle_message w m env).1 = (dispatch_message w m env).1 := by
  unfold handle_message
  cases h : dispatch_message w m env with
  | mk w' r => cases r <;> simp

theorem handle_message_running (w : WorkerState) (m : IPCMessage)
    (env : HandlerEnv) :
    (handle_message w m env).1.running
      = if m.type = MessageType.SHUTDOWN then false else w.running := by
  rw [handle_message_fst, dispatch_message_running]

/-- A loop segment with no SHUTDOWN message consumes every event and
leaves the worker running. -/
theorem run_loop_no_shutdown (events : List WorkerEvent) :
    ∀ w : WorkerState, w.running = true →
      (∀ m env, WorkerEvent.msg m env ∈ events →
        m.type ≠ MessageType.SHUTDOWN) →
      (run_loop w events).2.2 = [] ∧ (run_loop w events).1.running = true := by
  induction events with
  | nil =>
    intro w hw _
    exact ⟨rfl, hw⟩
  | cons e rest ih =>
    intro w hw hns
    cases e with
    | timeout =>
      have h := ih w hw (fun m env hm => hns m env (List.mem_cons_of_mem _ hm))
      simpa [run_loop, hw] using h
    | msg m env =>
      have ht : m.type ≠ MessageType.SHUTDOWN :=
        hns m env (List.mem_cons_self _ _)
      have hrun : (handle_message w m env).1.running = true := by
        rw [handle_message_running]
        simp [ht, hw]
      have h := ih (handle_message w m env).1 hrun
        (fun m' env' hm => hns m' env' (List.mem_cons_of_mem _ hm))
      simpa [run_loop, hw] using h

/-- C7: an exception raised while handling a message is caught at the
dispatch boundary and converted into an ERROR envelope carrying the
failure detail, with the `running` flag untouched; `running` is cleared
exactly by a SHUTDOWN message; and `PluginWorker.run` always runs the
cleanup (transport closed; a live plugin instance at loop exit is
disposed), with a SHUTDOWN-free event stream fully consumed and the
worker still running. -/
theorem C7_worker_exception_containment (w : WorkerState) (m : IPCMessage)
    (env : HandlerEnv) (w0 : WorkerState) (events : List WorkerEvent) :
    (∀ e, (dispatch_message w m env).2 = .error e →
      handle_message w m env
        = ((dispatch_message w m env).1,
            ErrorMessage w.instance_id e (some ("Traceback: " ++ e))) ∧
      (handle_message w m env).1.running = w.running) ∧
    ((handle_message w m env).1.running = false ↔
      (w.running = false ∨ m.type = MessageType.SHUTDOWN)) ∧
    (worker_run w0 events).transportClosed = true ∧
    (worker_run w0 events).disposedLivePlugin
      = (run_loop w0 events).1.plugin.isSome ∧
    (w0.running = true →
      (∀ m' env', WorkerEvent.msg m' env' ∈ events →
        m'.type ≠ MessageType.SHUTDOWN) →
      (worker_run w0 events).leftover = []
        ∧ (worker_run w0 events).finalState.running = true) := by
  refine ⟨?_, ?_, rfl, rfl, ?_⟩
  · intro e he
    have hts : m.type ≠ MessageType.SHUTDOWN := by
      intro ht
      rw [dispatch_message] at he
      simp [ht, handle_shutdown] at he
    constructor
    · unfold handle_message
      have hp : dispatch_message w m env
          = ((dispatch_message w m env).1, (dispatch_message w m env).2) :=
        rfl
      rw [hp, he]
    · rw [handle_message_running, if_neg hts]
  · rw [handle_message_running]
    by_cases ht : m.type = MessageType.SHUTDOWN <;>
      by_cases hr : w.running <;> simp [ht, hr]
  · intro hw0 hns
    have h := run_loop_no_shutdown events w0 hw0 hns
    exact ⟨h.1, h.2⟩

/-- C7 witness: a message whose handler raises (UPDATE with a payload
missing `delta_time`, a `KeyError`) yields an ERROR reply and leaves the
worker running; a SHUTDOWN-free stream is fully consumed with the worker
still running. -/
theorem C7_worker_exception_containment_witness :
    handle_message ⟨"i", some .STARTED, true⟩ ⟨.UPDATE, "i", []⟩
        ⟨none, true, none, .null⟩
      = (⟨"i", some .STARTED, true⟩,
          ErrorMessage "i" "KeyError: delta_time"
            (some ("Traceback: " ++ "KeyError: delta_time"))) ∧
    (worker_run ⟨"i", none, true⟩ [WorkerEvent.timeout]).leftover = [] ∧
    (worker_run ⟨"i", none, true⟩
        [WorkerEvent.timeout]).finalState.running = true :=
  ⟨((C7_worker_exception_containment ⟨"i", some .STARTED, true⟩
      ⟨.UPDATE, "i", []⟩ ⟨none, true, none, .null⟩
      ⟨"i", none, true⟩ [WorkerEvent.timeout]).1
        "KeyError: delta_time" rfl).1,
   ((C7_worker_exception_containment ⟨"i", some .STARTED, true⟩
      ⟨.UPDATE, "i", []⟩ ⟨none, true, none, .null⟩
      ⟨"i", none, true⟩ [WorkerEvent.timeout]).2.2.2.2 rfl
        (by intro m' env' hm; simp at hm)).1,
   ((C7_worker_exception_containment ⟨"i", some .STARTED, true⟩
      ⟨.UPDATE, "i", []⟩ ⟨none, true, none, .null⟩
      ⟨"i", none, true⟩ [WorkerEvent.timeout]).2.2.2.2 rfl
        (by intro m' env' hm; simp at hm)).2⟩

/-- C8 counterexample: a worker whose plugin is already STARTED (neither
INITIALIZED nor STOPPED) receives START and gets the ok reply, not the
ERROR envelope the claim requires in every lifecycle state other than
INITIALIZED/STOPPED. -/
theorem C8_start_counterexample :
    (handle_start ⟨"i1", some .STARTED, true⟩ ⟨none, true, none, .null⟩).2
      = .ok (okReply .START "i1") ∧
    (okReply .START "i1").type ≠ MessageType.ERROR ∧
    PluginState.STARTED ≠ PluginState.INITIALIZED ∧
    PluginState.STARTED ≠ PluginState.STOPPED :=
  ⟨rfl, by decide, by decide, by decide⟩

/-- C8 (amended): handling START replies with the ERROR envelope
("Plugin not initialized") exactly when no plugin instance exists; when
an instance exists (and its `start()` does not raise) the worker always
replies ok, and the instance transitions to STARTED precisely when its
state was INITIALIZED or STOPPED, the state being unchanged otherwise. -/
theorem C8_start_ok_iff_instance (w : WorkerState) (env : HandlerEnv)
    (h : env.callRaises = none) :
    (w.plugin = none →
      handle_start w env
        = (w, .ok (ErrorMessage w.instance_id "Plugin not initialized"))) ∧
    (∀ st, w.plugin = some st →
      handle_start w env
        = ({ w with plugin := some (PluginBase_start st) },
            .ok (okReply .START w.instance_id)) ∧
      ((st = .INITIALIZED ∨ st = .STOPPED) → PluginBase_start st = .STARTED) ∧
      (¬(st = .INITIALIZED ∨ st = .STOPPED) → PluginBase_start st = st)) := by
  constructor
  · intro hp
    simp [handle_start, hp]
  · intro st hp
    refine ⟨by simp [handle_start, hp, h], ?_, ?_⟩
    · intro hst
      simp [PluginBase_start, hst]
    · intro hst
      simp [PluginBase_start, hst]

/-- C8 witness: a worker holding an INITIALIZED plugin handles START with
the ok reply and the plugin transitions to STARTED. -/
theorem C8_start_ok_iff_instance_witness :
    handle_start ⟨"i1", some .INITIALIZED, true⟩ ⟨none, true, none, .null⟩
      = (⟨"i1", some .STARTED, true⟩, .ok (okReply .START "i1")) ∧
    PluginBase_start .INITIALIZED = .STARTED :=
  ⟨((C8_start_ok_iff_instance ⟨"i1", some .INITIALIZED, true⟩
      ⟨none, true, none, .null⟩ rfl).2 .INITIALIZED rfl).1,
   ((C8_start_ok_iff_instance ⟨"i1", some .INITIALIZED, true⟩
      ⟨none, true, none, .null⟩ rfl).2 .INITIALIZED rfl).2.1 (Or.inl rfl)⟩

/-- C9: `get_render_data` is total (no exception escapes): a
not-initialized proxy gets the not-initialized placeholder; an
initialized proxy whose `request_render` yields `None` gets the
render-error placeholder; and `request_render` yields `None` exactly on
an unknown instance, a missing reply (timeout) or an ERROR reply; a
successful reply without a `render_data` field yields the empty dict. -/
theorem C9_render_placeholder (p : ProxyState) (s : SupervisorState)
    (env : RenderEnv) :
    (p.initialized = false →
      get_render_data p s env
        = .obj [("html", .str "<div>Plugin not initialized</div>")]) ∧
    (p.initialized = true →
      request_render s env p.instance_id 400 300 = none →
      get_render_data p s env
        = .obj [("html", .str "<div>Render error</div>")]) ∧
    (request_render s env p.instance_id 400 300 = none ↔
      (dictLookup s.processes p.instance_id = none ∨ env.response = none ∨
        ∃ r, env.response = some r ∧ r.type = MessageType.ERROR)) ∧
    (∀ rd, request_render s env p.instance_id 400 300 = some rd →
      jsonLookup rd "render_data" = none →
      p.initialized = true →
      get_render_data p s env = .obj []) := by
  refine ⟨?_, ?_, ?_, ?_⟩
  · intro hp
    simp [get_render_data, hp]
  · intro hp hr
    simp [get_render_data, hp, hr]
  · unfold request_render
    by_cases hl : (dictLookup s.processes p.instance_id).isNone
    · rw [Option.isNone_iff_eq_none] at hl
      simp [hl]
    · rw [Option.isNone_iff_eq_none] at hl
      cases hres : env.response with
      | none => simp [hl, hres]
      | some r =>
        by_cases he : r.type = MessageType.ERROR <;> simp [hl, hres, he]
  · intro rd hr hf hp
    simp [get_render_data, hp, hr, hf, Option.getD]

/-- C9 witness: a proxy that is not initialized receives the
not-initialized placeholder dict. -/
theorem C9_render_placeholder_witness :
    get_render_data ⟨"i", false⟩ ⟨[], 5555⟩ ⟨none⟩
      = .obj [("html", .str "<div>Plugin not initialized</div>")] :=
  (C9_render_placeholder ⟨"i", false⟩ ⟨[], 5555⟩ ⟨none⟩).1 rfl

/-- C4: N `request_update` calls for the same instance, all within
`coalesce_window_ms` of the first and with no tick in between, leave
exactly one pending entry for that instance, carrying the first call's
reason and time and `coalesced_count = N - 1`. -/
theorem C4_coalescing (s : UMState) (i r1 : String) (t1 : Int)
    (rest : List (String × Int))
    (h0 : dictLookup s.pending i = none)
    (hwin : ∀ p ∈ rest, p.2 - t1 < (um_config s i).coalesce_window_ms) :
    dictLookup (apply_requests s i ((r1, t1) :: rest)).pending i
      = some ⟨i, r1, t1, rest.length⟩ ∧
    keyCount (apply_requests s i ((r1, t1) :: rest)).pending i = 1 := by
  have hs1 : request_update s i r1 t1
      = { s with pending := (dictInsert s.pending i ⟨i, r1, t1, 0⟩) } := by
    simp [request_update, h0]
  have hl1 : dictLookup (request_update s i r1 t1).pending i
      = some ⟨i, r1, t1, 0⟩ := by
    rw [hs1]; exact dictLookup_dictInsert_self _ _ _
  have hc1 : keyCount (request_update s i r1 t1).pending i = 1 := by
    rw [hs1]
    show keyCount (dictInsert s.pending i ⟨i, r1, t1, 0⟩) i = 1
    exact keyCount_dictInsert_of_none _ _ _ h0
  have hw1 : (um_config (request_update s i r1 t1) i).coalesce_window_ms
      = (um_config s i).coalesce_window_ms := by
    rw [hs1]; rfl
  have hrec := apply_requests_coalesce i r1 t1
    ((um_config s i).coalesce_window_ms) rest (request_update s i r1 t1) 0
    hw1 hl1 hc1 hwin
  simpa [apply_requests] using hrec

/-- C4 witness: three calls at 0, 10, 20 ms (window 100 ms) leave one
pending entry with `coalesced_count = 2`. -/
theorem C4_coalescing_witness :
    dictLookup (apply_requests ⟨[], [], [], []⟩ "w1"
      [("user", 0), ("timer", 10), ("timer", 20)]).pending "w1"
      = some ⟨"w1", "user", 0, 2⟩ ∧
    keyCount (apply_requests ⟨[], [], [], []⟩ "w1"
      [("user", 0), ("timer", 10), ("timer", 20)]).pending "w1" = 1 := by
  have h := C4_coalescing ⟨[], [], [], []⟩ "w1" "user" 0
    [("timer", 10), ("timer", 20)] rfl (by decide)
  simpa using h

/-- C5 counterexample: with the default `max_pending = 3`, four calls at
0..3 ms bring `coalesced_count` to 3 = `max_pending`, yet a fifth call at
4 ms — still inside the 100 ms coalesce window, which the code checks
before the backpressure bound — increments the count to 4, mutating the
pending map and exceeding `max_pending`, contrary to the claim. -/
theorem C5_backpressure_counterexample :
    dictLookup (apply_requests ⟨[], [], [], []⟩ "w1"
      [("user", 0), ("user", 1), ("user", 2), ("user", 3)]).pending "w1"
      = some ⟨"w1", "user", 0, 3⟩ ∧
    (um_config ⟨[], [], [], []⟩ "w1").max_pending = 3 ∧
    dictLookup (request_update (apply_requests ⟨[], [], [], []⟩ "w1"
      [("user", 0), ("user", 1), ("user", 2), ("user", 3)])
        "w1" "user" 4).pending "w1"
      = some ⟨"w1", "user", 0, 4⟩ :=
  ⟨rfl, rfl, rfl⟩

/-- C5 (amended): once `coalesced_count` has reached `max_pending`, a
further `request_update` call arriving at or after the end of the pending
entry's coalesce window is dropped without mutating the state; a call
still inside the coalesce window coalesces instead, so `coalesced_count`
can exceed `max_pending`. -/
theorem C5_backpressure_after_window (s : UMState) (i r : String)
    (now : Int) (req : UpdateRequest)
    (hlook : dictLookup s.pending i = some req)
    (hwin : (um_config s i).coalesce_window_ms ≤ now - req.requested_at)
    (hmax : (um_config s i).max_pending ≤ req.coalesced_count) :
    request_update s i r now = s := by
  have hw' : ¬(now - req.requested_at
      < (um_config s i).coalesce_window_ms) := not_lt.mpr hwin
  simp [request_update, hlook, hw', hmax]

/-- C5 witness: a saturated entry (`coalesced_count = 3 = max_pending`)
and a call 100 ms after its creation (window over) leave the state
untouched. -/
theorem C5_backpressure_after_window_witness :
    request_update ⟨[], [], [("w1", ⟨"w1", "user", 0, 3⟩)], []⟩
        "w1" "user" 100
      = ⟨[], [], [("w1", ⟨"w1", "user", 0, 3⟩)], []⟩ :=
  C5_backpressure_after_window ⟨[], [], [("w1", ⟨"w1", "user", 0, 3⟩)], []⟩
    "w1" "user" 100 ⟨"w1", "user", 0, 3⟩ rfl (by decide) (by decide)

/-- C10: the pending map of any state reachable from a unique-key state
holds at most one entry per instance_id; and a `request_update` arriving
after the pending entry's coalesce window has expired, while its count is
still below `max_pending`, overwrites the entry with a fresh one (new
reason, new requested_at, `coalesced_count = 0`), discarding what the old
entry represented without dispatching it. -/
theorem C10_pending_unique_and_overwrite :
    (∀ (s0 : UMState) (events : List UMEvent),
      (s0.pending.map Prod.fst).Nodup →
      ∀ i, keyCount (um_run s0 events).1.pending i ≤ 1) ∧
    (∀ (s : UMState) (i r : String) (now : Int) (req : UpdateRequest),
      dictLookup s.pending i = some req →
      (um_config s i).coalesce_window_ms ≤ now - req.requested_at →
      req.coalesced_count < (um_config s i).max_pending →
      request_update s i r now
        = { s with pending := (dictInsert s.pending i ⟨i, r, now, 0⟩) }) := by
  constructor
  · intro s0 events h i
    exact keyCount_le_one_of_nodup _ (um_run_nodup events s0 h) i
  · intro s i r now req hlook hwin hmax
    have hw' : ¬(now - req.requested_at
        < (um_config s i).coalesce_window_ms) := not_lt.mpr hwin
    have hm' : ¬((um_config s i).max_pending ≤ req.coalesced_count) :=
      not_le.mpr hmax
    simp [request_update, hlook, hw', hm']

/-- C10 witness: a short concrete trace keeps the pending map at one
entry per key, and a stale half-full entry is overwritten by a fresh
request. -/
theorem C10_pending_unique_and_overwrite_witness :
    keyCount (um_run ⟨[], [], [], []⟩
      [UMEvent.request "w1" "user" 0, UMEvent.request "w1" "user" 10,
       UMEvent.tick 20]).1.pending "w1" ≤ 1 ∧
    request_update ⟨[], [], [("w1", ⟨"w1", "user", 0, 1⟩)], []⟩
        "w1" "timer" 200
      = ⟨[], [], [("w1", ⟨"w1", "timer", 200, 0⟩)], []⟩ :=
  ⟨C10_pending_unique_and_overwrite.1 ⟨[], [], [], []⟩
    [UMEvent.request "w1" "user" 0, UMEvent.request "w1" "user" 10,
     UMEvent.tick 20] List.nodup_nil "w1",
   C10_pending_unique_and_overwrite.2 ⟨[], [], [("w1", ⟨"w1", "user", 0, 1⟩)], []⟩
     "w1" "timer" 200 ⟨"w1", "user", 0, 1⟩ rfl (by decide) (by decide)⟩

/-- C6: with an effective `min_interval_ms` of 500 for instance `i` and
`reset_throttle` never called (request/tick pressure only, tick times
nondecreasing, fresh manager with no recorded dispatch for `i`), any two
successive dispatches of `i` are at least 500 ms apart in tick time;
skipped entries stay pending, so this holds for every sequence of
`request_update` calls. -/
theorem C6_throttling (i : String) (s0 : UMState) (events : List UMEvent)
    (h500 : (um_config s0 i).min_interval_ms = 500)
    (hfresh : dictLookup s0.last_update i = none)
    (hpress : ∀ e ∈ events, isPressure e = true)
    (hmono : (tickTimes events).Pairwise (· ≤ ·)) :
    List.Chain' (fun a b => a + 500 ≤ b)
      (dispTimes i (um_run s0 events).2) := by
  have hb : ∀ t, dictLookup s0.last_update i = some t →
      ∀ t' ∈ tickTimes events, t ≤ t' := by
    intro t ht
    rw [hfresh] at ht
    exact Option.noConfusion ht
  exact (um_run_throttle i 500 (by norm_num) events s0 h500 hpress
    hmono hb).1

/-- C6 witness: with `min_interval_ms = 500` for `"w1"`, requests at 0
and 600 ms and ticks at 0 and 600 ms give dispatches at least 500 ms
apart. -/
theorem C6_throttling_witness :
    List.Chain' (fun a b => a + 500 ≤ b)
      (dispTimes "w1" (um_run ⟨[("w1", ⟨500, 3, 100⟩)], [], [], []⟩
        [UMEvent.request "w1" "user" 0, UMEvent.tick 0,
         UMEvent.request "w1" "user" 600, UMEvent.tick 600]).2) :=
  C6_throttling "w1" ⟨[("w1", ⟨500, 3, 100⟩)], [], [], []⟩
    [UMEvent.request "w1" "user" 0, UMEvent.tick 0,
     UMEvent.request "w1" "user" 600, UMEvent.tick 600]
    rfl rfl (by decide) (by decide)

end WidgetBoard
